import Mathlib

/-!
Shallow embedding of `cmk/utils/prediction/_prediction.py` (checkmk):
time-series resampling a la RRD, periodic time-window partitioning,
statistical summarization, and the prediction artifact store.

Machine integers are modelled as `Int` (Python ints are unbounded), float
values as `ℚ` (exact arithmetic; the square root in the standard deviation
maps into `ℝ`).  Fallible code (Python `raise`, `IndexError`) is modelled
with `Option`/`Except`.  The OS timezone facilities (`time.localtime`,
`time.timezone` / `time.altzone`) are an external interface and are
abstracted into a `Tz` record carrying the UTC offset (including DST, as
evaluated per timestamp) and the local day-of-month.
-/

namespace CmkPrediction

abbrev Seconds := Int
abbrev Timestamp := Int
abbrev TimeWindow := Timestamp × Timestamp × Seconds
abbrev TimeSeriesValue := Option ℚ
abbrev TimeSeriesValues := List TimeSeriesValue
abbrev Timegroup := String

/-- Python `range(start, stop, step)` as a list of integers
(ascending for positive step, descending for negative step). -/
def pyRange (start stop step : Int) : List Int :=
  if 0 < step then
    (List.range (((stop - start + step - 1) / step).toNat)).map (fun k : Nat => start + step * (k : Int))
  else if step < 0 then
    (List.range (((start - stop + (-step) - 1) / (-step)).toNat)).map
      (fun k : Nat => start + step * (k : Int))
  else []

/-- `rrd_timestamps`: the right-aligned bucket-end timestamps of a time window. -/
def rrd_timestamps (time_window : TimeWindow) : List Timestamp :=
  if time_window.2.2 = 0 then []
  else (pyRange time_window.1 time_window.2.1 time_window.2.2).map (fun t => t + time_window.2.2)

/-- `statistics.fmean`: arithmetic mean. -/
def fmean (l : List ℚ) : ℚ := l.sum / l.length

/-- Python `str.lower()` (ASCII, which covers all names involved), written
over the character list so that it reduces in the kernel. -/
def str_lower (s : String) : String := ⟨s.data.map Char.toLower⟩

/-- `aggregation_functions`: drop `None`s, short-circuit to `None` on an empty
remainder, then dispatch on the lower-cased function name (`None` defaults to
`"max"`); an unknown name raises (`Except.error`, Python `ValueError`). -/
def aggregation_functions (series : TimeSeriesValues) (aggr : Option String) :
    Except String TimeSeriesValue :=
  match series.filterMap id with
  | [] => .ok none
  | x :: xs =>
    let a := match aggr with | none => "max" | some s => str_lower s
    if a = "average" then .ok (some (fmean (x :: xs)))
    else if a = "max" then .ok (some (xs.foldl max x))
    else if a = "min" then .ok (some (xs.foldl min x))
    else .error ("Invalid Aggregation function " ++ a ++ ", only max, min, average allowed")

/-- `TimeSeries`: window `[start, end)` at fixed `step`, values right-aligned
to their sub-interval. -/
structure TimeSeries where
  start : Timestamp
  «end» : Timestamp
  step : Seconds
  values : TimeSeriesValues
deriving DecidableEq, Repr

def TimeSeries.twindow (ts : TimeSeries) : TimeWindow := (ts.start, ts.«end», ts.step)

/-- Loop body of `bfill_upsample`: walk the target grid, advancing the source
index `i` when the loop timestamp has reached the current source bucket-end;
list indexing is fallible (`none` models Python `IndexError`). -/
def bfillGo (current_times : List Timestamp) (values : TimeSeriesValues) (i : Nat) :
    List Timestamp → Option TimeSeriesValues
  | [] => some []
  | t :: rest =>
    match current_times.get? i with
    | none => none
    | some c =>
      let i' := if c ≤ t then i + 1 else i
      match values.get? i' with
      | none => none
      | some v =>
        match bfillGo current_times values i' rest with
        | none => none
        | some tail => some (v :: tail)

/-- `TimeSeries.bfill_upsample`: upsample by backward-filling values. -/
def TimeSeries.bfill_upsample (ts : TimeSeries) (twindow : TimeWindow) :
    Option TimeSeriesValues :=
  if twindow = ts.twindow then some ts.values
  else bfillGo (rrd_timestamps ts.twindow) ts.values 0
    (pyRange twindow.1 twindow.2.1 twindow.2.2)

def TimeSeries.time_data_pairs (ts : TimeSeries) : List (Timestamp × TimeSeriesValue) :=
  (rrd_timestamps ts.twindow).zip ts.values

/-- Loop body of `downsample`: group source pairs against the ordered target
boundary timestamps, reducing each finished group with the consolidation
function.  Returns the accumulated output together with the last open group. -/
def downsampleGo (cf : Option String) (desired_times : List Timestamp) :
    List (Timestamp × TimeSeriesValue) → TimeSeriesValues → TimeSeriesValues → Nat →
    Except String (TimeSeriesValues × TimeSeriesValues)
  | [], dwsa, co, _ => .ok (dwsa, co)
  | (t, val) :: rest, dwsa, co, i =>
    match desired_times.get? i with
    | none => .error "IndexError"
    | some dt =>
      if dt < t then
        match aggregation_functions co cf with
        | .error e => .error e
        | .ok a => downsampleGo cf desired_times rest (dwsa ++ [a]) [val] (i + 1)
      else
        downsampleGo cf desired_times rest dwsa (co ++ [val]) i

/-- `TimeSeries.downsample`: downsample by consolidation function (default `"max"`). -/
def TimeSeries.downsample (ts : TimeSeries) (twindow : TimeWindow)
    (cf : Option String := some "max") : Except String TimeSeriesValues :=
  if twindow = ts.twindow then .ok ts.values
  else
    let desired_times := rrd_timestamps twindow
    match downsampleGo cf desired_times ts.time_data_pairs [] [] 0 with
    | .error e => .error e
    | .ok (dwsa, co) =>
      let diff_len : Int := (desired_times.length : Int) - dwsa.length
      if 0 < diff_len then
        match aggregation_functions co cf with
        | .error e => .error e
        | .ok a => .ok (dwsa ++ [a] ++ List.replicate (diff_len - 1).toNat none)
      else
        .ok dwsa

/-- `_std_dev`: `None` for a single sample, else the radicand
`abs(Σ p² - average² · samples) / (samples - 1)`.  The source returns
`math.sqrt` of this radicand; since `ℝ` carries no executable code, the
square root (`Real.sqrt`) is applied in the statements instead of here, so
the pipeline stays computable. -/
def _std_dev (point_line : List ℚ) (average : ℚ) : Option ℚ :=
  if point_line.length = 1 then none
  else some
    (|(point_line.map (fun p => p ^ 2)).sum - average ^ 2 * point_line.length| /
      ((point_line.length : ℚ) - 1))

/-- Abstract OS timezone facilities (external interface, `time.localtime` /
`time.timezone` / `time.altzone`): `offset` is the result of `timezone_at`
(UTC offset in seconds, DST shift included, evaluated at the timestamp
itself); `mday` is `time.localtime(t).tm_mday` (local day of month), which
needs a calendar and stays abstract. -/
structure Tz where
  offset : Timestamp → Seconds
  mday : Timestamp → Int

/-- Modelled from the spec: `cmk.utils.dateutils.weekday_ids` (not under
`src/`) — the day-of-week names, Monday first, matching `tm_wday`'s
Monday-is-0 convention. -/
def weekday_ids : List String :=
  ["monday", "tuesday", "wednesday", "thursday", "friday", "saturday", "sunday"]

/-- `_window_start`: seconds from the local-time start of the current
`span`-sized slice (Python `%` is floor-mod, `Int.emod` here). -/
def _window_start (tz : Tz) (timestamp : Timestamp) (span : Seconds) : Seconds :=
  (timestamp - tz.offset timestamp) % span

/-- `time.localtime(t).tm_wday` (Monday = 0): epoch day 0 (1970-01-01) was a
Thursday, index 3. -/
def localWday (tz : Tz) (t : Timestamp) : Nat :=
  ((((t - tz.offset t) / 86400) + 3) % 7).toNat

def _group_by_wday (tz : Tz) (t : Timestamp) : Timegroup × Timestamp :=
  (weekday_ids.getD (localWday tz t) "", _window_start tz t 86400)

def _group_by_day (tz : Tz) (t : Timestamp) : Timegroup × Timestamp :=
  ("everyday", _window_start tz t 86400)

def _group_by_day_of_month (tz : Tz) (t : Timestamp) : Timegroup × Timestamp :=
  (toString (tz.mday t), _window_start tz t 86400)

def _group_by_everyhour (tz : Tz) (t : Timestamp) : Timegroup × Timestamp :=
  ("everyhour", _window_start tz t 3600)

structure _PeriodInfo where
  slice : Seconds
  groupby : Timestamp → Timegroup × Timestamp
  valid : Int

inductive _PeriodName | wday | day | hour | minute
deriving DecidableEq, Repr

def PREDICTION_PERIODS (tz : Tz) : _PeriodName → _PeriodInfo
  | .wday => ⟨86400, _group_by_wday tz, 7⟩
  | .day => ⟨86400, _group_by_day_of_month tz, 28⟩
  | .hour => ⟨86400, _group_by_day tz, 1⟩
  | .minute => ⟨3600, _group_by_everyhour tz, 24⟩

/-- `get_timegroup_relative_time`: bucket name, `[from_time, until_time)` of
the slice containing `t`, and the offset of `t` into it. -/
def get_timegroup_relative_time (t : Timestamp) (period_info : _PeriodInfo) :
    Timegroup × Timestamp × Timestamp × Seconds :=
  let g := period_info.groupby t
  (g.1, t - g.2, t - g.2 + period_info.slice, g.2)

/-- `_time_slices`: walk `begin` backward from `timestamp` in slice-sized
steps until the horizon is passed, keeping the bucket of every `begin`
whose timegroup equals the target. -/
def _time_slices (timestamp : Timestamp) (horizon : Seconds)
    (period_info : _PeriodInfo) (timegroup : Timegroup) :
    List (Timestamp × Timestamp) :=
  (pyRange timestamp (timestamp - horizon) (-period_info.slice)).filterMap
    (fun begin =>
      let r := get_timegroup_relative_time begin period_info
      if r.1 = timegroup then some (r.2.1, r.2.2.1) else none)

abbrev LevelsSpec := String × (ℚ × ℚ)

structure PredictionParameters where
  period : _PeriodName
  horizon : Int
  levels_upper : Option LevelsSpec := none
  levels_upper_min : Option (ℚ × ℚ) := none
  levels_lower : Option LevelsSpec := none
deriving DecidableEq, Repr

/-- `DataStat`: per-timepoint summary.  `stdev` stores the radicand produced
by `_std_dev` (see there). -/
structure DataStat where
  average : ℚ
  min_ : ℚ
  max_ : ℚ
  stdev : Option ℚ
deriving DecidableEq, Repr

structure PredictionInfo where
  name : Timegroup
  time : Int
  range : Timestamp × Timestamp
  cf : String
  dsname : String
  slice : Int
  params : PredictionParameters
deriving DecidableEq, Repr

structure PredictionData where
  points : List (Option DataStat)
  data_twindow : List Timestamp
  step : Seconds
deriving DecidableEq, Repr

def PredictionData.num_points (d : PredictionData) : Nat := d.points.length

/-- Python `zip(*slices)`: transpose truncated to the shortest row. -/
def pyZip (ls : List TimeSeriesValues) : List TimeSeriesValues :=
  match ls with
  | [] => []
  | l0 :: rest =>
    (List.range (rest.foldl (fun n l => min n l.length) l0.length)).map
      (fun i => (l0 :: rest).map (fun l => l.getD i none))

/-- `_data_stats`: summarize every aligned time column, `None` columns
yielding `None`. -/
def _data_stats (slices : List TimeSeriesValues) : List (Option DataStat) :=
  (pyZip slices).map (fun time_column =>
    match time_column.filterMap id with
    | [] => none
    | x :: xs =>
      let point_line := x :: xs
      let average := point_line.sum / (point_line.length : ℚ)
      some ⟨average, xs.foldl min x, xs.foldl max x, _std_dev point_line average⟩)

/-- Sequential evaluation of the list comprehension in `_upsample`:
`bfill_upsample` every slice onto the target window shifted by the slice's
own offset; an out-of-range index is an `IndexError`. -/
def upsampleAll (twindow : TimeWindow) :
    List (TimeSeries × Int) → Except String (List TimeSeriesValues)
  | [] => .ok []
  | p :: rest =>
    match p.1.bfill_upsample (twindow.1 - p.2, twindow.2.1 - p.2, twindow.2.2) with
    | none => .error "IndexError"
    | some vs =>
      match upsampleAll twindow rest with
      | .error e => .error e
      | .ok tail => .ok (vs :: tail)

/-- `_upsample`: align every slice onto the youngest slice's window, shifted
by its own offset; `slices[0]` on an empty list is an `IndexError`. -/
def _upsample (slices : List (TimeSeries × Int)) :
    Except String (TimeWindow × List TimeSeriesValues) :=
  match slices with
  | [] => .error "IndexError"
  | p0 :: _ =>
    (upsampleAll p0.1.twindow slices).map (fun l => (p0.1.twindow, l))

def _calculate_data_for_prediction (raw_slices : List (TimeSeries × Int)) :
    Except String PredictionData :=
  (_upsample raw_slices).map (fun p =>
    { points := _data_stats p.2, data_twindow := [p.1.1, p.1.2.1], step := p.1.2.2 })

/-- The two on-disk files of a `PredictionStore` directory, keyed by
timegroup.  Serialization is pydantic JSON (external); a written file is
modelled as holding the value itself. -/
structure StoreState where
  infoFiles : Timegroup → Option PredictionInfo
  dataFiles : Timegroup → Option PredictionData

/-- `PredictionStore.save_prediction`: write both files, unconditionally
overwriting. -/
def save_prediction (st : StoreState) (info : PredictionInfo) (data : PredictionData) :
    StoreState where
  infoFiles := fun tg => if tg = info.name then some info else st.infoFiles tg
  dataFiles := fun tg => if tg = info.name then some data else st.dataFiles tg

/-- `PredictionStore.remove_prediction`: `unlink(missing_ok=True)` on both
files — total, missing files are not an error. -/
def remove_prediction (st : StoreState) (timegroup : Timegroup) : StoreState where
  infoFiles := fun tg => if tg = timegroup then none else st.infoFiles tg
  dataFiles := fun tg => if tg = timegroup then none else st.dataFiles tg

/-- `PredictionStore.get_info`: `None` (absence, not an error) when the file
is missing. -/
def get_info (st : StoreState) (timegroup : Timegroup) : Option PredictionInfo :=
  st.infoFiles timegroup

def get_data (st : StoreState) (timegroup : Timegroup) : Option PredictionData :=
  st.dataFiles timegroup

/-- External data source (`get_rrd_data_with_mk_general_exception`):
a window descriptor plus values; failures are `Except.error`
(`MKGeneralException`). -/
structure RRDResponse where
  window : TimeWindow
  values : TimeSeriesValues
deriving DecidableEq, Repr

/-- Sequential evaluation of the `rrd_responses` list comprehension in
`compute_prediction`: fetch windows in order, pairing each response with
`from_time - start`; the first failure aborts.  Also returns the trace of
windows actually fetched. -/
def fetchLoop (fetch : Timestamp → Timestamp → Except String RRDResponse)
    (from_time : Timestamp) :
    List (Timestamp × Timestamp) →
    List (Timestamp × Timestamp) × Except String (List (RRDResponse × Int))
  | [] => ([], .ok [])
  | w :: rest =>
    match fetch w.1 w.2 with
    | .error err => ([w], .error err)
    | .ok r =>
      match fetchLoop fetch from_time rest with
      | (tr, .error err) => (w :: tr, .error err)
      | (tr, .ok l) => (w :: tr, .ok ((r, from_time - w.1) :: l))

/-- `compute_prediction`: remove the stale artifact, partition windows,
fetch each window from the external source, align, summarize, persist.
Returns the fetch trace, the resulting store state, and the outcome. -/
def compute_prediction (info : PredictionInfo) (st : StoreState) (now : Timestamp)
    (period_info : _PeriodInfo)
    (fetch : Timestamp → Timestamp → Except String RRDResponse) :
    List (Timestamp × Timestamp) × StoreState × Except String PredictionData :=
  let st1 := remove_prediction st info.name
  let time_windows := _time_slices now (info.params.horizon * 86400) period_info info.name
  match time_windows with
  | [] => ([], st1, .error "IndexError")
  | w0 :: _ =>
    match fetchLoop fetch w0.1 time_windows with
    | (trace, .error e) => (trace, st1, .error e)
    | (trace, .ok resps) =>
      let raw_slices := resps.map (fun p =>
        (TimeSeries.mk p.1.window.1 p.1.window.2.1 p.1.window.2.2 p.1.values, p.2))
      match _calculate_data_for_prediction raw_slices with
      | .error e => (trace, st1, .error e)
      | .ok data => (trace, save_prediction st1 info data, .ok data)

/-! ## Claims about aggregation, statistics, downsampling and the store -/

/-- C4: for every consolidation function, aggregating a series whose values
are all `None` (or an empty series) yields `None` — never zero, never an
error. -/
theorem aggregation_all_none_yields_none (series : TimeSeriesValues)
    (aggr : Option String) (h : ∀ x ∈ series, x = none) :
    aggregation_functions series aggr = .ok none := by
  have hnil : series.filterMap id = [] := by
    rw [List.filterMap_eq_nil_iff]
    intro a ha
    exact h a ha
  unfold aggregation_functions
  rw [hnil]

/-- Witness for `aggregation_all_none_yields_none` at `[None, None]` with
each of the three consolidation functions. -/
theorem aggregation_all_none_yields_none_witness :
    aggregation_functions [none, none] (some "average") = .ok none ∧
    aggregation_functions [none, none] (some "max") = .ok none ∧
    aggregation_functions [none, none] (some "min") = .ok none :=
  ⟨aggregation_all_none_yields_none _ _ (by decide),
   aggregation_all_none_yields_none _ _ (by decide),
   aggregation_all_none_yields_none _ _ (by decide)⟩

/-- C3 counterexample: with an all-`None` series, an unknown consolidation
function name does *not* raise — the empty-after-cleaning short circuit
fires first and returns `None`. -/
theorem aggregation_unknown_name_all_none_counterexample :
    aggregation_functions [none] (some "median") = .ok none := rfl

/-- C3 (amended): on every series that still has a value after dropping
`None`s, a consolidation function name other than average/max/min
(case-insensitively) raises `InvalidAggregationError` — it never falls back
to another function or to a `None` result. -/
theorem aggregation_unknown_name_errors (series : TimeSeriesValues) (a : String)
    (hne : series.filterMap id ≠ [])
    (h1 : str_lower a ≠ "average") (h2 : str_lower a ≠ "max")
    (h3 : str_lower a ≠ "min") :
    aggregation_functions series (some a) =
      .error ("Invalid Aggregation function " ++ str_lower a ++
        ", only max, min, average allowed") := by
  unfold aggregation_functions
  rcases hm : series.filterMap id with _ | ⟨x, xs⟩
  · exact absurd hm hne
  · simp [hm, h1, h2, h3]

/-- Witness for `aggregation_unknown_name_errors` at `[1]` and `"median"`. -/
theorem aggregation_unknown_name_errors_witness :
    aggregation_functions [some 1] (some "median") =
      .error "Invalid Aggregation function median, only max, min, average allowed" :=
  aggregation_unknown_name_errors [some 1] "median" (by decide) (by decide)
    (by decide) (by decide)

/-- C6: downsampling onto the series' own window returns the original value
sequence unchanged, whatever the consolidation function. -/
theorem downsample_same_window_is_identity (ts : TimeSeries) (cf : Option String) :
    ts.downsample ts.twindow cf = .ok ts.values := by
  unfold TimeSeries.downsample
  rw [if_pos rfl]

/-- C5: `_std_dev` of a single sample is `None`; otherwise its square root
is `sqrt(|Σ x² − n·average²| / (n − 1))`; for `[2, 4]` with average 3 that
is `sqrt 2`. -/
theorem std_dev_formula (point_line : List ℚ) (average : ℚ)
    (hne : point_line ≠ []) :
    (point_line.length = 1 → _std_dev point_line average = none) ∧
    (point_line.length ≠ 1 →
      (_std_dev point_line average).map (fun q : ℚ => Real.sqrt (q : ℝ)) =
        some (Real.sqrt
          (|(point_line.map (fun p : ℚ => (p : ℝ) ^ 2)).sum -
              point_line.length * (average : ℝ) ^ 2| /
            ((point_line.length : ℝ) - 1)))) ∧
    (_std_dev [2, 4] 3).map (fun q : ℚ => Real.sqrt (q : ℝ)) = some (Real.sqrt 2) := by
  have hsum : ∀ l : List ℚ,
      (((l.map (fun p => p ^ 2)).sum : ℚ) : ℝ) = (l.map (fun p : ℚ => (p : ℝ) ^ 2)).sum := by
    intro l
    induction l with
    | nil => simp
    | cons x xs ih => simp only [List.map_cons, List.sum_cons]; push_cast [ih]; ring
  refine ⟨fun h1 => by simp [_std_dev, h1], fun h1 => ?_, ?_⟩
  · simp only [_std_dev, if_neg h1, Option.map_some']
    congr 1
    push_cast [hsum]
    rw [mul_comm ((average : ℝ) ^ 2) ((point_line.length : ℝ))]
  · have h2 : _std_dev [2, 4] 3 = some 2 := by
      simp [_std_dev]
      norm_num
    rw [h2]
    rfl

/-- Witness for `std_dev_formula` at `[2, 4]` and average 3. -/
theorem std_dev_formula_witness :
    (_std_dev [2, 4] 3).map (fun q : ℚ => Real.sqrt (q : ℝ)) = some (Real.sqrt 2) :=
  (std_dev_formula [2, 4] 3 (by decide)).2.2

/-- C9: the consolidation-function name is matched after lower-casing, a
missing name (`None`) aggregates as `max`, and `downsample`'s default
consolidation function is `"max"`. -/
theorem aggregation_case_insensitive_and_max_default :
    (∀ (series : TimeSeriesValues) (a : String), str_lower a = "average" →
      aggregation_functions series (some a) =
        aggregation_functions series (some "average")) ∧
    (∀ (series : TimeSeriesValues) (a : String), str_lower a = "max" →
      aggregation_functions series (some a) =
        aggregation_functions series (some "max")) ∧
    (∀ (series : TimeSeriesValues) (a : String), str_lower a = "min" →
      aggregation_functions series (some a) =
        aggregation_functions series (some "min")) ∧
    (∀ series : TimeSeriesValues,
      aggregation_functions series none = aggregation_functions series (some "max")) ∧
    (∀ (ts : TimeSeries) (twindow : TimeWindow),
      ts.downsample twindow = ts.downsample twindow (some "max")) := by
  have lavg : str_lower "average" = "average" := by decide
  have lmax : str_lower "max" = "max" := by decide
  have lmin : str_lower "min" = "min" := by decide
  refine ⟨fun series a h => ?_, fun series a h => ?_, fun series a h => ?_,
    fun series => ?_, fun ts twindow => rfl⟩ <;>
    unfold aggregation_functions <;>
    rcases hm : series.filterMap id with _ | ⟨x, xs⟩ <;>
    simp_all [lavg, lmax, lmin]

/-- Witness for `aggregation_case_insensitive_and_max_default` at `"AVERAGE"`. -/
theorem aggregation_case_insensitive_and_max_default_witness :
    aggregation_functions [some 1, some 3] (some "AVERAGE") =
      aggregation_functions [some 1, some 3] (some "average") :=
  aggregation_case_insensitive_and_max_default.1 [some 1, some 3] "AVERAGE" (by decide)

/-- C8: saving an artifact and reading it back under the same bucket
identity returns exactly what was saved (both files); removing a bucket
identity — also one whose files are already missing — makes both reads
return absence (`none`), not an error. -/
theorem store_save_get_remove_roundtrip (st : StoreState) (info : PredictionInfo)
    (data : PredictionData) (tg : Timegroup) :
    get_data (save_prediction st info data) info.name = some data ∧
    get_info (save_prediction st info data) info.name = some info ∧
    get_data (remove_prediction st tg) tg = none ∧
    get_info (remove_prediction st tg) tg = none := by
  refine ⟨?_, ?_, ?_, ?_⟩ <;>
    simp [get_data, get_info, save_prediction, remove_prediction]

/-! ## Claims about the time-window partitioner -/

/-- A fixed-offset timezone (UTC): no DST, `tm_mday` irrelevant here. -/
def utcTz : Tz := ⟨fun _ => 0, fun _ => 1⟩

lemma pyRange_neg (a b s : Int) (hs : 0 < s) :
    pyRange a b (-s) =
      (List.range ((a - b + s - 1) / s).toNat).map (fun k : Nat => a - s * (k : Int)) := by
  unfold pyRange
  rw [if_neg (by omega), if_pos (by omega)]
  simp only [neg_neg]
  have : (fun k : Nat => a + -s * k) = fun k : Nat => a - s * k := by
    funext k
    ring
  rw [this]

lemma lt_ceil_ediv_iff {h s : Int} (hs : 0 < s) (k : Nat) :
    k < ((h + s - 1) / s).toNat ↔ (k : Int) * s < h := by
  rw [Int.lt_toNat, Int.lt_iff_add_one_le, Int.le_ediv_iff_mul_le hs]
  constructor <;> intro hk <;> nlinarith

lemma mem_time_slices_iff (now horizon : Int) (pi : _PeriodInfo) (tg : Timegroup)
    (hs : 0 < pi.slice) (w : Int × Int) :
    w ∈ _time_slices now horizon pi tg ↔
      ∃ k : Nat, (k : Int) * pi.slice < horizon ∧
        (pi.groupby (now - pi.slice * k)).1 = tg ∧
        w.1 = now - pi.slice * k - (pi.groupby (now - pi.slice * k)).2 ∧
        w.2 = w.1 + pi.slice := by
  unfold _time_slices get_timegroup_relative_time
  rw [pyRange_neg now (now - horizon) pi.slice hs, List.filterMap_map]
  simp only [List.mem_filterMap, List.mem_range, Function.comp]
  constructor
  · rintro ⟨k, hk, hw⟩
    split at hw
    case isTrue htg =>
      rw [Option.some_inj] at hw
      subst hw
      exact ⟨k, by rw [← lt_ceil_ediv_iff hs]; simpa using hk, htg, rfl, rfl⟩
    case isFalse => exact absurd hw (by simp)
  · rintro ⟨k, hk, htg, h1, h2⟩
    refine ⟨k, ?_, ?_⟩
    · rw [lt_ceil_ediv_iff hs] at *
      simpa using hk
    · rw [if_pos htg]
      obtain ⟨w1, w2⟩ := w
      simp only at h1 h2 ⊢
      rw [h1, h2, h1]

lemma time_slices_sorted (now horizon : Int) (pi : _PeriodInfo) (tg : Timegroup)
    (hs : 0 < pi.slice)
    (hoff : ∀ t, 0 ≤ (pi.groupby t).2 ∧ (pi.groupby t).2 < pi.slice) :
    (_time_slices now horizon pi tg).Pairwise (fun w1 w2 => w2.1 < w1.1) := by
  unfold _time_slices get_timegroup_relative_time
  rw [pyRange_neg now (now - horizon) pi.slice hs, List.filterMap_map,
    List.pairwise_filterMap]
  refine (List.pairwise_lt_range _).imp ?_
  intro k k' hkk w hw w' hw'
  simp only [Function.comp] at hw hw'
  split at hw
  case isFalse => simp at hw
  case isTrue =>
    split at hw'
    case isFalse => simp at hw'
    case isTrue =>
      simp only [Option.mem_def, Option.some_inj] at hw hw'
      subst hw hw'
      have hk1 := (hoff (now - pi.slice * k)).2
      have hk2 := (hoff (now - pi.slice * k')).1
      have hmul : pi.slice * ((k : Int) + 1) ≤ pi.slice * k' := by
        apply mul_le_mul_of_nonneg_left _ hs.le
        exact_mod_cast hkk
      simp only
      nlinarith

/-- C2: the partitioner walks `begin` backward from `now` in slice-width
steps until the horizon is passed, keeping exactly the buckets whose
identity matches the target, most recent first (strictly decreasing window
starts); for period `weekday`, a 14-day horizon from a Tuesday yields
exactly 2 matching windows, 7 days apart. -/
theorem time_slices_walk_and_weekday_example :
    (∀ (now horizon : Int) (pi : _PeriodInfo) (tg : Timegroup), 0 < pi.slice →
      (∀ w : Int × Int, w ∈ _time_slices now horizon pi tg ↔
        ∃ k : Nat, (k : Int) * pi.slice < horizon ∧
          (pi.groupby (now - pi.slice * k)).1 = tg ∧
          w.1 = now - pi.slice * k - (pi.groupby (now - pi.slice * k)).2 ∧
          w.2 = w.1 + pi.slice) ∧
      ((∀ t, 0 ≤ (pi.groupby t).2 ∧ (pi.groupby t).2 < pi.slice) →
        (_time_slices now horizon pi tg).Pairwise (fun w1 w2 => w2.1 < w1.1))) ∧
    ((PREDICTION_PERIODS utcTz _PeriodName.wday).groupby 1672704000).1 = "tuesday" ∧
    _time_slices 1672704000 (14 * 86400) (PREDICTION_PERIODS utcTz _PeriodName.wday)
        "tuesday" =
      [(1672704000, 1672790400), (1672099200, 1672185600)] ∧
    (1672704000 : Int) - 1672099200 = 7 * 86400 :=
  ⟨fun now horizon pi tg hs =>
    ⟨mem_time_slices_iff now horizon pi tg hs,
     time_slices_sorted now horizon pi tg hs⟩,
   by decide, by decide, by decide⟩

/-- Witness for `time_slices_walk_and_weekday_example`: the prior Tuesday's
window is a member, via the walk characterization at `k = 7`. -/
theorem time_slices_walk_and_weekday_example_witness :
    ((1672099200 : Int), (1672185600 : Int)) ∈
      _time_slices 1672704000 (14 * 86400)
        (PREDICTION_PERIODS utcTz _PeriodName.wday) "tuesday" :=
  ((time_slices_walk_and_weekday_example.1 1672704000 (14 * 86400)
      (PREDICTION_PERIODS utcTz _PeriodName.wday) "tuesday" (by decide)).1
    (1672099200, 1672185600)).mpr
    ⟨7, by decide, by decide, by decide, by decide⟩

/-! ## Claims about the orchestrator (`compute_prediction`) -/

lemma fetchLoop_trace_append (fetch : Timestamp → Timestamp → Except String RRDResponse)
    (from_time : Timestamp) :
    ∀ ws : List (Timestamp × Timestamp),
      ∃ rest, (fetchLoop fetch from_time ws).1 ++ rest = ws := by
  intro ws
  induction ws with
  | nil => exact ⟨[], rfl⟩
  | cons w rest ih =>
    obtain ⟨u, hu⟩ := ih
    cases hf : fetch w.1 w.2 with
    | error err => exact ⟨rest, by simp [fetchLoop, hf]⟩
    | ok r =>
      cases hrec : fetchLoop fetch from_time rest with
      | mk tr res =>
        rw [hrec] at hu
        simp only at hu
        cases res with
        | error e2 => exact ⟨u, by simp [fetchLoop, hf, hrec, hu]⟩
        | ok l => exact ⟨u, by simp [fetchLoop, hf, hrec, hu]⟩

lemma fetchLoop_error_mem (fetch : Timestamp → Timestamp → Except String RRDResponse)
    (from_time : Timestamp) :
    ∀ (ws : List (Timestamp × Timestamp)) (e : String),
      (fetchLoop fetch from_time ws).2 = .error e →
      ∃ w ∈ ws, fetch w.1 w.2 = .error e := by
  intro ws
  induction ws with
  | nil =>
    intro e h
    simp [fetchLoop] at h
  | cons w rest ih =>
    intro e h
    cases hf : fetch w.1 w.2 with
    | error err =>
      simp only [fetchLoop, hf] at h
      have herr : err = e := Except.error.inj h
      exact ⟨w, by simp, by rw [hf, herr]⟩
    | ok r =>
      cases hrec : fetchLoop fetch from_time rest with
      | mk tr res =>
        cases res with
        | error e2 =>
          simp only [fetchLoop, hf, hrec] at h
          obtain ⟨w2, hw2, hfw2⟩ := ih e (by rw [hrec, ← h])
          exact ⟨w2, by simp [hw2], hfw2⟩
        | ok l =>
          simp only [fetchLoop, hf, hrec] at h
          cases h

lemma fetchLoop_ok_trace (fetch : Timestamp → Timestamp → Except String RRDResponse)
    (from_time : Timestamp) :
    ∀ (ws : List (Timestamp × Timestamp)) (resps : List (RRDResponse × Int)),
      (fetchLoop fetch from_time ws).2 = .ok resps →
      (fetchLoop fetch from_time ws).1 = ws := by
  intro ws
  induction ws with
  | nil => intro resps _; rfl
  | cons w rest ih =>
    intro resps h
    cases hf : fetch w.1 w.2 with
    | error err => simp [fetchLoop, hf] at h
    | ok r =>
      cases hrec : fetchLoop fetch from_time rest with
      | mk tr res =>
        cases res with
        | error e2 => simp [fetchLoop, hf, hrec] at h
        | ok l =>
          have : tr = rest := by
            have := ih l (by rw [hrec])
            rw [hrec] at this
            exact this
          simp [fetchLoop, hf, hrec, this]

lemma upsampleAll_error_shape (twindow : TimeWindow) :
    ∀ (l : List (TimeSeries × Int)) (e : String),
      upsampleAll twindow l = .error e → e = "IndexError" := by
  intro l
  induction l with
  | nil =>
    intro e h
    simp [upsampleAll] at h
  | cons p rest ih =>
    intro e h
    cases hb : p.1.bfill_upsample (twindow.1 - p.2, twindow.2.1 - p.2, twindow.2.2) with
    | none =>
      simp only [upsampleAll, hb] at h
      exact (Except.error.inj h).symm
    | some vs =>
      cases hrec : upsampleAll twindow rest with
      | error e2 =>
        simp only [upsampleAll, hb, hrec] at h
        exact ih e (by rw [hrec, Except.error.inj h])
      | ok tail =>
        simp only [upsampleAll, hb, hrec] at h
        cases h

lemma calculate_error_shape (raw_slices : List (TimeSeries × Int)) (e : String)
    (h : _calculate_data_for_prediction raw_slices = .error e) : e = "IndexError" := by
  unfold _calculate_data_for_prediction _upsample at h
  rcases raw_slices with _ | ⟨p0, rest⟩
  · simp only [Except.map] at h
    exact (Except.error.inj h).symm
  · cases hu : upsampleAll p0.1.twindow (p0 :: rest) with
    | error err =>
      have herr := upsampleAll_error_shape p0.1.twindow (p0 :: rest) err hu
      simp only [hu, Except.map_error] at h
      simp only [Except.map] at h
      exact (Except.error.inj h) ▸ herr
    | ok l =>
      simp only [hu, Except.map] at h
      cases h

/-- Shared case analysis of `compute_prediction`: the fetch trace is an
initial segment of the partitioned windows; on any failure the resulting
store state is exactly the state after the initial removal (and the error
is an index error or a propagated fetch error); on success the trace is the
whole window list and the final state is a save on top of the removal. -/
lemma compute_prediction_spec (info : PredictionInfo) (st : StoreState)
    (now : Timestamp) (period_info : _PeriodInfo)
    (fetch : Timestamp → Timestamp → Except String RRDResponse) :
    (∃ rest, (compute_prediction info st now period_info fetch).1 ++ rest =
      _time_slices now (info.params.horizon * 86400) period_info info.name) ∧
    (∀ e, (compute_prediction info st now period_info fetch).2.2 = .error e →
      (compute_prediction info st now period_info fetch).2.1 =
        remove_prediction st info.name ∧
      (e = "IndexError" ∨
        ∃ w ∈ _time_slices now (info.params.horizon * 86400) period_info info.name,
          fetch w.1 w.2 = .error e)) ∧
    (∀ d, (compute_prediction info st now period_info fetch).2.2 = .ok d →
      (compute_prediction info st now period_info fetch).1 =
        _time_slices now (info.params.horizon * 86400) period_info info.name ∧
      (compute_prediction info st now period_info fetch).2.1 =
        save_prediction (remove_prediction st info.name) info d) := by
  simp only [compute_prediction]
  split
  case _ heq =>
    refine ⟨⟨[], by simp [heq]⟩, ?_, ?_⟩
    · intro e he
      obtain rfl : "IndexError" = e := by simpa using he
      exact ⟨rfl, Or.inl rfl⟩
    · intro d hd
      simp at hd
  case _ w0 rest_ws heq =>
    split
    case _ trace e0 heqf =>
      rw [heq] at heqf
      have h2 : (fetchLoop fetch w0.1 (w0 :: rest_ws)).2 = .error e0 := by
        rw [heqf]
      refine ⟨?_, ?_, ?_⟩
      · obtain ⟨u, hu⟩ := fetchLoop_trace_append fetch w0.1 (w0 :: rest_ws)
        rw [heqf] at hu
        exact ⟨u, by simpa [heq] using hu⟩
      · intro e he
        obtain rfl : e0 = e := by simpa using he
        refine ⟨rfl, Or.inr ?_⟩
        obtain ⟨w, hw, hfw⟩ := fetchLoop_error_mem fetch w0.1 (w0 :: rest_ws) e0 h2
        exact ⟨w, by rw [heq]; exact hw, hfw⟩
      · intro d hd
        simp at hd
    case _ trace resps heqf =>
      rw [heq] at heqf
      have h2 : (fetchLoop fetch w0.1 (w0 :: rest_ws)).2 = .ok resps := by
        rw [heqf]
      have htr : trace = w0 :: rest_ws := by
        have := fetchLoop_ok_trace fetch w0.1 (w0 :: rest_ws) resps h2
        rw [heqf] at this
        exact this
      split
      case _ e1 heqc =>
        refine ⟨⟨[], by simp [heq, htr]⟩, ?_, ?_⟩
        · intro e he
          obtain rfl : e1 = e := by simpa using he
          exact ⟨rfl, Or.inl (calculate_error_shape _ e1 heqc)⟩
        · intro d hd
          simp at hd
      case _ data heqc =>
        refine ⟨⟨[], by simp [heq, htr]⟩, ?_, ?_⟩
        · intro e he
          simp at he
        · intro d hd
          obtain rfl : data = d := by simpa using hd
          exact ⟨by rw [heq, htr], rfl⟩

/-- Decidable equality for `Except`, needed to evaluate concrete runs of
`compute_prediction` by `decide`. -/
instance {ε α : Type _} [DecidableEq ε] [DecidableEq α] : DecidableEq (Except ε α)
  | .error a, .error b =>
    if h : a = b then .isTrue (h ▸ rfl)
    else .isFalse fun hc => h (Except.error.inj hc)
  | .error _, .ok _ => .isFalse fun hc => Except.noConfusion hc
  | .ok _, .error _ => .isFalse fun hc => Except.noConfusion hc
  | .ok a, .ok b =>
    if h : a = b then .isTrue (h ▸ rfl)
    else .isFalse fun hc => h (Except.ok.inj hc)

/-- C7: `compute_prediction` first unconditionally removes the existing
artifact; a failing external fetch propagates to the caller (no local
retry: each window is fetched at most once, in order, the trace being an
initial segment of the window list); an artifact is persisted only on the
success path, and then it is exactly the fully computed statistics object
that is also returned. -/
theorem compute_prediction_remove_propagate_save (info : PredictionInfo)
    (st : StoreState) (now : Timestamp) (period_info : _PeriodInfo)
    (fetch : Timestamp → Timestamp → Except String RRDResponse) :
    (∃ rest, (compute_prediction info st now period_info fetch).1 ++ rest =
      _time_slices now (info.params.horizon * 86400) period_info info.name) ∧
    (∀ e, (compute_prediction info st now period_info fetch).2.2 = .error e →
      (compute_prediction info st now period_info fetch).2.1 =
        remove_prediction st info.name ∧
      (e = "IndexError" ∨
        ∃ w ∈ _time_slices now (info.params.horizon * 86400) period_info info.name,
          fetch w.1 w.2 = .error e)) ∧
    (∀ d, (compute_prediction info st now period_info fetch).2.2 = .ok d →
      (compute_prediction info st now period_info fetch).1 =
        _time_slices now (info.params.horizon * 86400) period_info info.name ∧
      (compute_prediction info st now period_info fetch).2.1 =
        save_prediction (remove_prediction st info.name) info d ∧
      get_data (compute_prediction info st now period_info fetch).2.1 info.name =
        some d) := by
  obtain ⟨h1, h2, h3⟩ := compute_prediction_spec info st now period_info fetch
  refine ⟨h1, h2, ?_⟩
  intro d hd
  obtain ⟨ha, hb⟩ := h3 d hd
  exact ⟨ha, hb, by rw [hb]; simp [get_data, save_prediction]⟩

/-- Witness for `compute_prediction_remove_propagate_save`: with an
always-failing fetcher the error propagates and the store state equals the
state after the removal. -/
theorem compute_prediction_remove_propagate_save_witness :
    (compute_prediction
        ⟨"everyday", 0, (0, 0), "max", "ds", 86400, ⟨.hour, 1, none, none, none⟩⟩
        ⟨fun _ => none, fun _ => none⟩ 259200
        (PREDICTION_PERIODS utcTz _PeriodName.hour)
        (fun _ _ => .error "boom")).2.1 =
      remove_prediction ⟨fun _ => none, fun _ => none⟩ "everyday" ∧
    ("boom" = "IndexError" ∨
      ∃ w ∈ _time_slices 259200 (1 * 86400)
          (PREDICTION_PERIODS utcTz _PeriodName.hour) "everyday",
        (fun _ _ => (.error "boom" : Except String RRDResponse)) w.1 w.2 =
          .error "boom") :=
  (compute_prediction_remove_propagate_save
      ⟨"everyday", 0, (0, 0), "max", "ds", 86400, ⟨.hour, 1, none, none, none⟩⟩
      ⟨fun _ => none, fun _ => none⟩ 259200
      (PREDICTION_PERIODS utcTz _PeriodName.hour)
      (fun _ _ => .error "boom")).2.1 "boom" (by decide)

/-- C10: because the removal precedes every fetch, any failing
`compute_prediction` leaves the store with *no* artifact for the bucket
identity — the old artifact is gone and reads return absence; concretely, a
store holding an artifact for `"everyhour"` loses it when every fetch
fails. -/
theorem compute_prediction_failure_loses_old_artifact :
    (∀ (info : PredictionInfo) (st : StoreState) (now : Timestamp)
        (period_info : _PeriodInfo)
        (fetch : Timestamp → Timestamp → Except String RRDResponse) (e : String),
      (compute_prediction info st now period_info fetch).2.2 = .error e →
        get_info (compute_prediction info st now period_info fetch).2.1 info.name =
          none ∧
        get_data (compute_prediction info st now period_info fetch).2.1 info.name =
          none) ∧
    get_data
        (⟨fun _ => some ⟨"everyhour", 0, (0, 0), "max", "ds", 3600,
            ⟨.minute, 1, none, none, none⟩⟩,
          fun _ => some ⟨[], [0, 0], 1⟩⟩ : StoreState) "everyhour" =
      some ⟨[], [0, 0], 1⟩ ∧
    (compute_prediction
        ⟨"everyhour", 0, (0, 0), "max", "ds", 3600, ⟨.minute, 1, none, none, none⟩⟩
        ⟨fun _ => some ⟨"everyhour", 0, (0, 0), "max", "ds", 3600,
            ⟨.minute, 1, none, none, none⟩⟩,
          fun _ => some ⟨[], [0, 0], 1⟩⟩ 7200
        (PREDICTION_PERIODS utcTz _PeriodName.minute)
        (fun _ _ => .error "unreachable")).2.2 = .error "unreachable" ∧
    get_data
        (compute_prediction
          ⟨"everyhour", 0, (0, 0), "max", "ds", 3600, ⟨.minute, 1, none, none, none⟩⟩
          ⟨fun _ => some ⟨"everyhour", 0, (0, 0), "max", "ds", 3600,
              ⟨.minute, 1, none, none, none⟩⟩,
            fun _ => some ⟨[], [0, 0], 1⟩⟩ 7200
          (PREDICTION_PERIODS utcTz _PeriodName.minute)
          (fun _ _ => .error "unreachable")).2.1 "everyhour" = none ∧
    get_info
        (compute_prediction
          ⟨"everyhour", 0, (0, 0), "max", "ds", 3600, ⟨.minute, 1, none, none, none⟩⟩
          ⟨fun _ => some ⟨"everyhour", 0, (0, 0), "max", "ds", 3600,
              ⟨.minute, 1, none, none, none⟩⟩,
            fun _ => some ⟨[], [0, 0], 1⟩⟩ 7200
          (PREDICTION_PERIODS utcTz _PeriodName.minute)
          (fun _ _ => .error "unreachable")).2.1 "everyhour" = none := by
  refine ⟨?_, rfl, by decide, by decide, by decide⟩
  intro info st now period_info fetch e he
  have hst := ((compute_prediction_spec info st now period_info fetch).2.1 e he).1
  rw [hst]
  exact ⟨by simp [get_info, remove_prediction], by simp [get_data, remove_prediction]⟩

/-- Witness for `compute_prediction_failure_loses_old_artifact`: its
universally quantified clause applied at the concrete failing scenario. -/
theorem compute_prediction_failure_loses_old_artifact_witness :
    get_info
        (compute_prediction
          ⟨"everyday", 1, (0, 0), "min", "ds2", 86400, ⟨.hour, 1, none, none, none⟩⟩
          ⟨fun _ => none, fun _ => none⟩ 172800
          (PREDICTION_PERIODS utcTz _PeriodName.hour)
          (fun _ _ => .error "down")).2.1 "everyday" = none ∧
    get_data
        (compute_prediction
          ⟨"everyday", 1, (0, 0), "min", "ds2", 86400, ⟨.hour, 1, none, none, none⟩⟩
          ⟨fun _ => none, fun _ => none⟩ 172800
          (PREDICTION_PERIODS utcTz _PeriodName.hour)
          (fun _ _ => .error "down")).2.1 "everyday" = none :=
  compute_prediction_failure_loses_old_artifact.1
    ⟨"everyday", 1, (0, 0), "min", "ds2", 86400, ⟨.hour, 1, none, none, none⟩⟩
    ⟨fun _ => none, fun _ => none⟩ 172800
    (PREDICTION_PERIODS utcTz _PeriodName.hour)
    (fun _ _ => .error "down") "down" (by decide)

/-! ## Claims about `bfill_upsample` -/

/-- Spec-side notion for C1: the *first* source value whose bucket-end
timestamp is `≥ τ`, walking the bucket-end list and the value list in
lockstep. -/
def firstAtOrAfter (τ : Int) : List Timestamp → TimeSeriesValues → Option TimeSeriesValue
  | c :: cs, v :: vs => if τ ≤ c then some v else firstAtOrAfter τ cs vs
  | _, _ => none

lemma pyRange_pos (a b s : Int) (hs : 0 < s) :
    pyRange a b s =
      (List.range ((b - a + s - 1) / s).toNat).map (fun k : Nat => a + s * (k : Int)) := by
  unfold pyRange
  rw [if_pos hs]

lemma ceil_ediv_mul (s : Int) (n : Nat) (hs : 0 < s) :
    ((s * n + s - 1) / s).toNat = n := by
  have h1 : s * (n : Int) + s - 1 = (s - 1) + (n : Int) * s := by ring
  rw [h1, Int.add_mul_ediv_right _ _ (ne_of_gt hs),
    Int.ediv_eq_zero_of_lt (by omega) (by omega)]
  simp

lemma pyRange_len_arith (S s : Int) (n : Nat) (hs : 0 < s) :
    (pyRange S (S + s * n) s).length = n := by
  rw [pyRange_pos _ _ _ hs, List.length_map, List.length_range]
  have h1 : S + s * (n : Int) - S + s - 1 = s * n + s - 1 := by ring
  rw [h1, ceil_ediv_mul s n hs]

lemma pyRange_lt_stop (a b s : Int) (hs : 0 < s) :
    ∀ t ∈ pyRange a b s, t < b := by
  intro t ht
  rw [pyRange_pos _ _ _ hs] at ht
  simp only [List.mem_map, List.mem_range] at ht
  obtain ⟨k, hk, rfl⟩ := ht
  have h1 : (k : Int) < (b - a + s - 1) / s := Int.lt_toNat.mp hk
  have h2 : ((k : Int) + 1) * s ≤ b - a + s - 1 := by
    rw [← Int.le_ediv_iff_mul_le hs]
    omega
  nlinarith

lemma rrd_timestamps_arith (S s : Int) (n : Nat) (hs : 0 < s) :
    rrd_timestamps (S, S + s * n, s) =
      (List.range n).map (fun j : Nat => S + s * (j : Int) + s) := by
  unfold rrd_timestamps
  dsimp only
  rw [if_neg (by omega : ¬ s = 0), pyRange_pos _ _ _ hs, List.map_map]
  have h1 : S + s * (n : Int) - S + s - 1 = s * n + s - 1 := by ring
  rw [h1, ceil_ediv_mul s n hs]
  rfl

lemma arith_get? (S s : Int) (n j : Nat) (hj : j < n) :
    ((List.range n).map (fun j : Nat => S + s * (j : Int) + s)).get? j =
      some (S + s * (j : Int) + s) := by
  rw [List.get?_map, List.get?_range hj]
  rfl

lemma get?_eq_some_getD (l : TimeSeriesValues) (j : Nat) (hj : j < l.length) :
    l.get? j = some (l.getD j none) := by
  rw [List.get?_eq_get hj, List.getD_eq_get]

lemma getD_range_map (f : Nat → TimeSeriesValue) (K k : Nat) (hk : k < K) :
    ((List.range K).map f).getD k none = f k := by
  have : ((List.range K).map f).get? k = some (f k) := by
    rw [List.get?_map, List.get?_range hk]
    rfl
  rw [List.getD_eq_get?, this]
  rfl

lemma map_getD_range_self (l : TimeSeriesValues) :
    (List.range l.length).map (fun k => l.getD k none) = l := by
  induction l with
  | nil => rfl
  | cons v vs ih =>
    rw [List.length_cons, List.range_succ_eq_map, List.map_cons, List.map_map]
    simp only [List.getD_cons_zero, Function.comp_def, List.getD_cons_succ]
    rw [ih]

/-- The `bfill_upsample` loop never overruns provided every loop timestamp
stays strictly below the source window end (`S + s·n`). -/
lemma bfillGo_total (S s : Int) (hs : 0 < s) (n : Nat) (vals : TimeSeriesValues)
    (hlen : vals.length = n) :
    ∀ (ts_list : List Int) (i : Nat), i < n → (∀ t ∈ ts_list, t < S + s * n) →
      ∃ l, bfillGo ((List.range n).map (fun j : Nat => S + s * (j : Int) + s)) vals i
          ts_list = some l ∧ l.length = ts_list.length := by
  intro ts_list
  induction ts_list with
  | nil => intro i _ _; exact ⟨[], rfl, rfl⟩
  | cons t rest ih =>
    intro i hi hb
    have hct := arith_get? S s n i hi
    by_cases hc : S + s * (i : Int) + s ≤ t
    · have ht : t < S + s * n := hb t (by simp)
      have hin : i + 1 < n := by
        have h1 : ((i : Int) + 1) * s < (n : Int) * s := by nlinarith
        have h2 : (i : Int) + 1 < (n : Int) := lt_of_mul_lt_mul_right h1 hs.le
        exact_mod_cast h2
      obtain ⟨v, hv⟩ : ∃ v, vals.get? (i + 1) = some v :=
        ⟨_, get?_eq_some_getD vals (i + 1) (by omega)⟩
      obtain ⟨l, hl, hlen'⟩ := ih (i + 1) hin (fun t' ht' => hb t' (by simp [ht']))
      refine ⟨v :: l, ?_, by simp [hlen']⟩
      rw [bfillGo, hct]
      simp only [if_pos hc]
      rw [hv, hl]
    · obtain ⟨v, hv⟩ : ∃ v, vals.get? i = some v :=
        ⟨_, get?_eq_some_getD vals i (by omega)⟩
      obtain ⟨l, hl, hlen'⟩ := ih i hi (fun t' ht' => hb t' (by simp [ht']))
      refine ⟨v :: l, ?_, by simp [hlen']⟩
      rw [bfillGo, hct]
      simp only [if_neg hc]
      rw [hv, hl]

/-- The `bfill_upsample` loop on an aligned arithmetic target grid of step
`d` against a source of step `d·m` emits, at slot `k0 + k`, the source
value at index `(k0 + k) / m`. -/
lemma bfillGo_arith (d : Int) (hd : 0 < d) (m : Nat) (hm : 0 < m) (S : Int) (n : Nat)
    (vals : TimeSeriesValues) (hlen : vals.length = n) :
    ∀ (K k0 i : Nat), k0 + K ≤ n * m → k0 ≤ (i + 1) * m →
      (i * m + 1 ≤ k0 ∨ (i = 0 ∧ k0 = 0)) →
      bfillGo ((List.range n).map (fun j : Nat => S + (d * m) * (j : Int) + d * m)) vals i
          ((List.range K).map (fun k : Nat => S + d * ((k0 : Int) + (k : Int)))) =
        some ((List.range K).map (fun k : Nat => vals.getD ((k0 + k) / m) none)) := by
  intro K
  induction K with
  | zero => intro k0 i _ _ _; rfl
  | succ K ih =>
    intro k0 i hK h1 h2
    have hnm : 0 < n * m := by
      rcases h2 with h2 | ⟨rfl, rfl⟩ <;> omega
    have hin : i < n := by
      rcases h2 with h2 | ⟨rfl, rfl⟩
      · have him : i * m < n * m := by omega
        exact Nat.lt_of_mul_lt_mul_right him
      · rcases Nat.eq_zero_or_pos n with h0 | h0
        · subst h0; simp at hnm
        · exact h0
    have hk0n : k0 < n * m := by omega
    have hct := arith_get? S (d * m) n i hin
    have hcond : (S + (d * m) * (i : Int) + d * m ≤ S + d * ((k0 : Int) + ((0 : Nat) : Int))) ↔
        (i + 1) * m ≤ k0 := by
      push_cast
      constructor <;> intro h <;> nlinarith
    have hvalid : k0 / m < n := (Nat.div_lt_iff_lt_mul hm).mpr hk0n
    have htail : ((List.range K).map
          ((fun k : Nat => S + d * ((k0 : Int) + (k : Int))) ∘ Nat.succ)) =
        (List.range K).map (fun k : Nat => S + d * (((k0 + 1 : Nat) : Int) + (k : Int))) := by
      apply List.map_congr_left
      intro k _
      simp only [Function.comp]
      push_cast
      ring
    have hsucc2 : (i + 1 + 1) * m = (i + 1) * m + m := Nat.succ_mul (i + 1) m
    rw [List.range_succ_eq_map, List.map_cons, List.map_cons, List.map_map, List.map_map]
    rw [bfillGo, hct]
    dsimp only
    by_cases hc : (i + 1) * m ≤ k0
    · have hk0 : k0 = (i + 1) * m := le_antisymm h1 hc
      have hdiv : (k0 + 0) / m = i + 1 := by
        rw [Nat.add_zero, hk0]
        exact Nat.mul_div_cancel _ hm
      have hsucc_lt : i + 1 < n := Nat.lt_of_mul_lt_mul_right (by omega : (i + 1) * m < n * m)
      rw [if_pos (hcond.mpr hc)]
      rw [show vals.get? (i + 1) = some (vals.getD ((k0 + 0) / m) none) by
        rw [hdiv]
        exact get?_eq_some_getD vals (i + 1) (by omega)]
      dsimp only
      rw [htail, ih (k0 + 1) (i + 1) (by omega) (by omega) (Or.inl (by omega))]
      dsimp only
      congr 2
      apply List.map_congr_left
      intro k _
      simp only [Function.comp]
      congr 2
      omega
    · have hlt : k0 < (i + 1) * m := Nat.lt_of_not_le hc
      have hdiv : (k0 + 0) / m = i := by
        rw [Nat.add_zero]
        rcases h2 with h2 | ⟨rfl, rfl⟩
        · exact Nat.div_eq_of_lt_le (Nat.le_of_succ_le h2) hlt
        · simp
      rw [if_neg (fun h => hc (hcond.mp h))]
      rw [show vals.get? i = some (vals.getD ((k0 + 0) / m) none) by
        rw [hdiv]
        exact get?_eq_some_getD vals i (by omega)]
      dsimp only
      rw [htail, ih (k0 + 1) i (by omega) (by omega)
        (by rcases h2 with h2 | ⟨rfl, rfl⟩
            · exact Or.inl (by omega)
            · exact Or.inl (by omega))]
      dsimp only
      congr 2
      apply List.map_congr_left
      intro k _
      simp only [Function.comp]
      congr 2
      omega

/-- The first bucket-end `≥ S + d(k+1)` in the arithmetic bucket-end list of
step `d·m` pairs with the value at index `k / m`. -/
lemma firstAtOrAfter_arith (d : Int) (hd : 0 < d) (m : Nat) (hm : 0 < m) :
    ∀ (n : Nat) (S : Int) (vals : TimeSeriesValues), vals.length = n →
      ∀ k : Nat, k < n * m →
        firstAtOrAfter (S + d * ((k : Int) + 1))
            ((List.range n).map (fun j : Nat => S + (d * m) * (j : Int) + d * m)) vals =
          some (vals.getD (k / m) none) := by
  intro n
  induction n with
  | zero =>
    intro S vals _ k hk
    simp at hk
  | succ n ih =>
    intro S vals hlen k hk
    rcases vals with _ | ⟨v, vs⟩
    · simp at hlen
    rw [List.range_succ_eq_map, List.map_cons, List.map_map]
    rw [firstAtOrAfter]
    simp only [Nat.cast_zero, mul_zero, add_zero, zero_add]
    have hsucc : (n + 1) * m = n * m + m := Nat.succ_mul n m
    by_cases hkm : k < m
    · rw [if_pos (by push_cast; nlinarith)]
      rw [Nat.div_eq_of_lt hkm]
      rfl
    · have hkm' : m ≤ k := Nat.le_of_not_lt hkm
      have hmk : (m : Int) ≤ (k : Int) := by exact_mod_cast hkm'
      rw [if_neg (by push_cast; intro h; nlinarith)]
      have htail : ((List.range n).map
            ((fun j : Nat => S + (d * m) * (j : Int) + d * m) ∘ Nat.succ)) =
          (List.range n).map (fun j : Nat => (S + d * m) + (d * m) * (j : Int) + d * m) := by
        apply List.map_congr_left
        intro j _
        simp only [Function.comp]
        push_cast
        ring
      rw [htail]
      have hτ : S + d * ((k : Int) + 1) = (S + d * m) + d * (((k - m : Nat) : Int) + 1) := by
        rw [Nat.cast_sub hkm']
        ring
      rw [hτ, ih (S + d * m) vs (by simpa using hlen) (k - m) (by omega)]
      have hdiv2 : k / m = (k - m) / m + 1 := Nat.div_eq_sub_div hm hkm'
      rw [hdiv2]
      rfl

/-- C1 counterexample: full coverage of the target window by the source
domain is *not* enough for the first-bucket-end-`≥` characterization.  For
the source `[0, 100)` at step 10 with values `0..9` and the covered target
window `(50, 60, 10)`, `bfill_upsample` yields the value of the *second*
source bucket, while the first source value whose bucket-end is `≥ 60` (the
single target timestamp) is the value 5. -/
theorem bfill_upsample_coverage_counterexample :
    ((0 : Int) ≤ 50 ∧ (60 : Int) ≤ 100) ∧
    (TimeSeries.mk 0 100 10
        [some 0, some 1, some 2, some 3, some 4, some 5, some 6, some 7, some 8,
          some 9]).bfill_upsample (50, 60, 10) = some [some 1] ∧
    firstAtOrAfter (50 + 10 * (0 + 1))
        (rrd_timestamps (TimeSeries.mk 0 100 10
          [some 0, some 1, some 2, some 3, some 4, some 5, some 6, some 7, some 8,
            some 9]).twindow)
        [some 0, some 1, some 2, some 3, some 4, some 5, some 6, some 7, some 8,
          some 9] = some (some 5) ∧
    some (some (1 : ℚ)) ≠ some (some (5 : ℚ)) := by
  refine ⟨⟨by omega, by omega⟩, by decide, by decide, by decide⟩

/-- C1 (amended): (1) whenever the target window is covered by the source
domain, `bfill_upsample` returns one value per target grid point and the
indexing never overruns; (2) when additionally the target window *starts at
the source start* and the target step *divides* the source step, each
returned value is the first source value whose bucket-end timestamp is `≥`
the corresponding target timestamp.  (Coverage alone does not give (2); see
the counterexample.) -/
theorem bfill_upsample_total_and_backfills :
    (∀ (ts : TimeSeries) (S T d : Int) (n : Nat),
      0 < ts.step → 0 < d →
      ts.«end» = ts.start + ts.step * n → ts.values.length = n →
      ts.start ≤ S → T ≤ ts.«end» →
      ∃ l, ts.bfill_upsample (S, T, d) = some l ∧
        l.length = (pyRange S T d).length) ∧
    (∀ (ts : TimeSeries) (T d : Int) (m n : Nat),
      0 < d → 0 < m → ts.step = d * m →
      ts.«end» = ts.start + ts.step * n → ts.values.length = n →
      T ≤ ts.«end» →
      ∃ l, ts.bfill_upsample (ts.start, T, d) = some l ∧
        l.length = (pyRange ts.start T d).length ∧
        ∀ k : Nat, k < l.length →
          l.get? k = some (ts.values.getD (k / m) none) ∧
          firstAtOrAfter (ts.start + d * ((k : Int) + 1)) (rrd_timestamps ts.twindow)
              ts.values = some (ts.values.getD (k / m) none)) := by
  constructor
  · intro ts S T d n hs hd hend hlen hS hT
    unfold TimeSeries.bfill_upsample
    by_cases heq : ((S, T, d) : TimeWindow) = ts.twindow
    · rw [if_pos heq]
      refine ⟨ts.values, rfl, ?_⟩
      have h1 : S = ts.start := congrArg Prod.fst heq
      have h2 : T = ts.«end» := congrArg (fun w : TimeWindow => w.2.1) heq
      have h3 : d = ts.step := congrArg (fun w : TimeWindow => w.2.2) heq
      rw [h1, h2, h3, hend, pyRange_len_arith _ _ _ hs, hlen]
    · rw [if_neg heq]
      have hct : rrd_timestamps ts.twindow =
          (List.range n).map (fun j : Nat => ts.start + ts.step * (j : Int) + ts.step) := by
        have htw : ts.twindow = (ts.start, ts.start + ts.step * n, ts.step) := by
          unfold TimeSeries.twindow
          rw [hend]
        rw [htw, rrd_timestamps_arith _ _ _ hs]
      by_cases hpE : pyRange S T d = []
      · exact ⟨[], by rw [hpE]; rfl, by simp [hpE]⟩
      · obtain ⟨t0, hmem⟩ := List.exists_mem_of_ne_nil _ hpE
        have hn : 0 < n := by
          have htlt : t0 < T := pyRange_lt_stop S T d hd t0 hmem
          have htge : S ≤ t0 := by
            rw [pyRange_pos _ _ _ hd] at hmem
            simp only [List.mem_map, List.mem_range] at hmem
            obtain ⟨k, _, rfl⟩ := hmem
            have : (0 : Int) ≤ d * k := by positivity
            omega
          rcases Nat.eq_zero_or_pos n with h0 | h0
          · exfalso
            subst h0
            simp only [Nat.cast_zero, mul_zero, add_zero] at hend
            have hcontr : ts.start < ts.start :=
              lt_of_le_of_lt (le_trans hS htge)
                (lt_of_lt_of_le htlt (le_trans hT (le_of_eq hend)))
            exact absurd hcontr (lt_irrefl _)
          · exact h0
        have hbound : ∀ t ∈ pyRange S T d, t < ts.start + ts.step * n := by
          intro t ht
          have h1 := pyRange_lt_stop S T d hd t ht
          rw [hend] at hT
          omega
        obtain ⟨l, hl, hlen'⟩ :=
          bfillGo_total ts.start ts.step hs n ts.values hlen (pyRange S T d) 0 hn hbound
        rw [← hct] at hl
        exact ⟨l, hl, hlen'⟩
  · intro ts T d m n hd hm hstep hend hlen hT
    have hmz : (0 : Int) < (m : Int) := by exact_mod_cast hm
    have hsp : 0 < ts.step := by rw [hstep]; positivity
    have hctA : rrd_timestamps ts.twindow =
        (List.range n).map (fun j : Nat => ts.start + (d * m) * (j : Int) + d * m) := by
      have htw : ts.twindow = (ts.start, ts.start + ts.step * n, ts.step) := by
        unfold TimeSeries.twindow
        rw [hend]
      rw [htw, rrd_timestamps_arith _ _ _ hsp]
      simp only [hstep]
    have hKle : (pyRange ts.start T d).length ≤ n * m := by
      rw [pyRange_pos _ _ _ hd, List.length_map, List.length_range, Int.toNat_le]
      have h1 : T - ts.start + d - 1 ≤ d * ((n * m : Nat) : Int) + d - 1 := by
        have hTr : T ≤ ts.start + ts.step * (n : Int) := hend ▸ hT
        have heqm : ts.start + ts.step * (n : Int) =
            ts.start + d * ((n * m : Nat) : Int) := by
          rw [hstep]
          push_cast
          ring
        rw [heqm] at hTr
        omega
      calc (T - ts.start + d - 1) / d ≤ (d * ((n * m : Nat) : Int) + d - 1) / d :=
            Int.ediv_le_ediv hd h1
        _ = ((n * m : Nat) : Int) := by
            rw [show d * ((n * m : Nat) : Int) + d - 1 = (d - 1) + ((n * m : Nat) : Int) * d by
              ring, Int.add_mul_ediv_right _ _ (ne_of_gt hd),
              Int.ediv_eq_zero_of_lt (by omega) (by omega)]
            simp
    by_cases heq : ((ts.start, T, d) : TimeWindow) = ts.twindow
    · have h2 : T = ts.«end» := congrArg (fun w : TimeWindow => w.2.1) heq
      have h3 : d = ts.step := congrArg (fun w : TimeWindow => w.2.2) heq
      have hm1 : m = 1 := by
        have hdm : d = d * (m : Int) := by
          conv_lhs => rw [h3, hstep]
        have h1m : (1 : Int) = (m : Int) :=
          mul_left_cancel₀ (ne_of_gt hd) (by rw [mul_one]; exact hdm)
        exact_mod_cast h1m.symm
      have hKn : (pyRange ts.start T d).length = n := by
        rw [h2, hend, h3, pyRange_len_arith _ _ _ hsp]
      unfold TimeSeries.bfill_upsample
      rw [if_pos heq]
      refine ⟨ts.values, rfl, by rw [hKn, hlen], ?_⟩
      intro k hk
      rw [hlen] at hk
      have hdivk : k / m = k := by rw [hm1, Nat.div_one]
      constructor
      · rw [hdivk]
        exact get?_eq_some_getD ts.values k (by omega)
      · rw [hctA]
        exact firstAtOrAfter_arith d hd m hm n ts.start ts.values hlen k
          (by rw [hm1]; omega)
    · unfold TimeSeries.bfill_upsample
      rw [if_neg heq]
      have hpR : pyRange ts.start T d =
          (List.range (pyRange ts.start T d).length).map
            (fun k : Nat => ts.start + d * (((0 : Nat) : Int) + (k : Int))) := by
        rw [pyRange_pos _ _ _ hd]
        simp only [List.length_map, List.length_range]
        apply List.map_congr_left
        intro k _
        simp
      refine ⟨(List.range (pyRange ts.start T d).length).map
        (fun k : Nat => ts.values.getD (k / m) none), ?_, by simp, ?_⟩
      · rw [hctA]
        conv in pyRange ts.start T d => rw [hpR]
        rw [bfillGo_arith d hd m hm ts.start n ts.values hlen
          (pyRange ts.start T d).length 0 0 (by omega) (by omega) (Or.inr ⟨rfl, rfl⟩)]
        congr 1
        apply List.map_congr_left
        intro k _
        rw [Nat.zero_add]
      · intro k hk
        simp only [List.length_map, List.length_range] at hk
        constructor
        · rw [List.get?_map, List.get?_range hk]
          rfl
        · rw [hctA]
          exact firstAtOrAfter_arith d hd m hm n ts.start ts.values hlen k (by omega)

/-- Witness for `bfill_upsample_total_and_backfills`: upsampling the
two-value series over `[0, 60)` at step 30 onto the aligned step-10 grid. -/
theorem bfill_upsample_total_and_backfills_witness :
    ∃ l, (TimeSeries.mk 0 60 30 [some 1, some 2]).bfill_upsample (0, 60, 10) = some l ∧
      l.length = (pyRange 0 60 10).length ∧
      ∀ k : Nat, k < l.length →
        l.get? k = some ((TimeSeries.mk 0 60 30 [some 1, some 2]).values.getD (k / 3) none) ∧
        firstAtOrAfter (0 + 10 * ((k : Int) + 1))
            (rrd_timestamps (TimeSeries.mk 0 60 30 [some 1, some 2]).twindow)
            (TimeSeries.mk 0 60 30 [some 1, some 2]).values =
          some ((TimeSeries.mk 0 60 30 [some 1, some 2]).values.getD (k / 3) none) :=
  bfill_upsample_total_and_backfills.2 (TimeSeries.mk 0 60 30 [some 1, some 2])
    60 10 3 2 (by decide) (by decide) (by decide) (by decide) (by decide) (by decide)

end CmkPrediction
